import Mathlib

/-!
Shallow embedding of `src/database.py` (techfren-discord-bot), a SQLite
persistence layer for Discord messages and channel summaries.

Modelling conventions:

* The SQLite database is modelled as a `DBState`: the list of rows of the
  `messages` table and of the `channel_summaries` table, in rowid
  (insertion) order.
* Python `datetime` values are modelled by `PyDateTime` (proleptic
  Gregorian calendar, microsecond resolution).  Python restricts years to
  `1..9999` and raises `OverflowError` outside that range; the embedding
  idealises the calendar as unbounded above, and theorems whose content
  depends on the lower boundary carry explicit representability
  hypotheses.  `datetime.isoformat` and `timedelta` arithmetic are
  reproduced exactly (including the omission of the `.ffffff` suffix when
  the microsecond field is zero).
* The `created_at` column stores `created_at.isoformat()` TEXT; since
  every write goes through `store_message`, a row's timestamp is kept as
  the `PyDateTime` it round-trips to, and every SQL comparison on the
  column is performed on its `isoformat` rendering, exactly as SQLite
  compares the stored TEXT (binary/memcmp order, which on UTF-8 agrees
  with code-point lexicographic order, `strLtB` below).
* Each fallible operation takes a leading `fail : Bool` oracle: `fail =
  true` models an environmental storage failure (I/O error, locked file,
  …) raised inside the `try:` block; the `except` handler then rolls the
  transaction back and returns the operation's sentinel value, which is
  what the corresponding branch of the Python code does.
* `datetime.now()` is passed in as an explicit `now` argument.
-/

/-- Byte/code-point lexicographic order on char lists (SQLite's BLOB/TEXT
memcmp order restricted to valid UTF-8). -/
def charListLt : List Char → List Char → Bool
  | _, [] => false
  | [], _ :: _ => true
  | a :: as, b :: bs =>
    decide (a.toNat < b.toNat) || (decide (a.toNat = b.toNat) && charListLt as bs)

/-- Strict text order used by SQLite when comparing TEXT values. -/
def strLtB (a b : String) : Bool := charListLt a.data b.data

/-- Reflexive text order; `a BETWEEN x AND y` is `x ≤ a ∧ a ≤ y` in this
order. -/
def strLeB (a b : String) : Bool := !(strLtB b a)

/-- Embedding of a Python `datetime.datetime` value (naive, microsecond
resolution).  Python's constructor validates `1 ≤ month ≤ 12` etc.; values
outside those ranges are not constructible in Python and never arise from
the operations below. -/
structure PyDateTime where
  year : Nat
  month : Nat
  day : Nat
  hour : Nat
  minute : Nat
  second : Nat
  microsecond : Nat
deriving DecidableEq

/-- Gregorian leap-year test (as in Python's `calendar.isleap`). -/
def isLeap (y : Nat) : Bool := (y % 4 == 0 && y % 100 != 0) || y % 400 == 0

/-- Number of days in month `m` of year `y`. -/
def daysInMonth (y m : Nat) : Nat :=
  if m == 2 then (if isLeap y then 29 else 28)
  else if m == 4 || m == 6 || m == 9 || m == 11 then 30
  else 31

/-- Days in year `y` before the first day of month `m`. -/
def daysBeforeMonth (y m : Nat) : Nat :=
  (List.range (m - 1)).foldl (fun acc i => acc + daysInMonth y (i + 1)) 0

/-- Days before January 1 of year `y` (proleptic Gregorian, day 1 =
0001-01-01), as in Python's `datetime._days_before_year`. -/
def daysBeforeYear (y : Nat) : Nat :=
  (y - 1) * 365 + (y - 1) / 4 - (y - 1) / 100 + (y - 1) / 400

/-- Proleptic Gregorian ordinal of a date (0001-01-01 is day 1), as in
Python's `datetime.toordinal`. -/
def toordinal (dt : PyDateTime) : Nat :=
  daysBeforeYear dt.year + daysBeforeMonth dt.year dt.month + dt.day

/-- Locate the month containing 0-based day-of-year `doy`; returns the
month and the 0-based day within it.  Called with `m = 1`, `fuel = 11`. -/
def monthOfDoy (y : Nat) : Nat → Nat → Nat → Nat × Nat
  | m, doy, 0 => (m, doy)
  | m, doy, fuel + 1 =>
    if doy < daysInMonth y m then (m, doy)
    else monthOfDoy y (m + 1) (doy - daysInMonth y m) fuel

/-- Inverse of `toordinal` on the date part, following Python's
`datetime._ord2ymd` (400/100/4/1-year decomposition). -/
def ord2ymd (n : Nat) : Nat × Nat × Nat :=
  let n0 := n - 1
  let n400 := n0 / 146097
  let r400 := n0 % 146097
  let n100 := r400 / 36524
  let r100 := r400 % 36524
  let n4 := r100 / 1461
  let r4 := r100 % 1461
  let n1 := r4 / 365
  let r1 := r4 % 365
  let year := n400 * 400 + n100 * 100 + n4 * 4 + n1 + 1
  if n1 == 4 || n100 == 4 then (year - 1, 12, 31)
  else
    let md := monthOfDoy year 1 r1 11
    (year, md.1, md.2 + 1)

/-- Microseconds from 0001-01-01T00:00:00 to the given datetime. -/
def toMicros (dt : PyDateTime) : Nat :=
  ((toordinal dt - 1) * 86400 + dt.hour * 3600 + dt.minute * 60 + dt.second)
    * 1000000 + dt.microsecond

/-- Datetime at the given number of microseconds past
0001-01-01T00:00:00. -/
def fromMicros (n : Nat) : PyDateTime :=
  let micro := n % 1000000
  let s := n / 1000000
  let ymd := ord2ymd (s / 86400 + 1)
  { year := ymd.1, month := ymd.2.1, day := ymd.2.2,
    hour := s / 3600 % 24, minute := s / 60 % 60, second := s % 60,
    microsecond := micro }

/-- `dt + timedelta(microseconds = n)`: Python timedelta addition. -/
def addMicros (dt : PyDateTime) (n : Nat) : PyDateTime :=
  fromMicros (toMicros dt + n)

/-- `dt + timedelta(hours = h)`. -/
def addHours (dt : PyDateTime) (h : Nat) : PyDateTime :=
  addMicros dt (h * 3600000000)

/-- `dt - timedelta(hours = h)`.  Python raises `OverflowError` when the
result would precede year 1; the embedding clamps at
0001-01-01T00:00:00 instead (Nat subtraction), and agrees with Python
whenever `h * 3600000000 ≤ toMicros dt`. -/
def subHours (dt : PyDateTime) (h : Nat) : PyDateTime :=
  fromMicros (toMicros dt - h * 3600000000)

/-- Decimal digit character. -/
def digitChar (n : Nat) : Char := Char.ofNat (48 + n)

/-- Two-digit zero-padded decimal rendering (`%02d` for values `< 100`,
which covers every field Python's validating constructor admits). -/
def pad2 (n : Nat) : List Char := [digitChar (n / 10 % 10), digitChar (n % 10)]

/-- Four-digit zero-padded decimal rendering (`%04d` for values `< 10000`,
i.e. all Python years). -/
def pad4 (n : Nat) : List Char :=
  [digitChar (n / 1000 % 10), digitChar (n / 100 % 10),
   digitChar (n / 10 % 10), digitChar (n % 10)]

/-- Six-digit zero-padded decimal rendering (`%06d`, microseconds). -/
def pad6 (n : Nat) : List Char :=
  [digitChar (n / 100000 % 10), digitChar (n / 10000 % 10),
   digitChar (n / 1000 % 10), digitChar (n / 100 % 10),
   digitChar (n / 10 % 10), digitChar (n % 10)]

/-- Python `datetime.isoformat()`: `YYYY-MM-DDTHH:MM:SS` with a
`.ffffff` suffix exactly when the microsecond field is non-zero. -/
def PyDateTime.isoformat (dt : PyDateTime) : String :=
  String.mk
    (pad4 dt.year ++ '-' :: pad2 dt.month ++ '-' :: pad2 dt.day ++
     'T' :: pad2 dt.hour ++ ':' :: pad2 dt.minute ++ ':' :: pad2 dt.second ++
     (if dt.microsecond == 0 then [] else '.' :: pad6 dt.microsecond))

/-- Python `date.strftime(chr(37) + "Y-" + chr(37) + "m-" + chr(37) +
"d")`, i.e. the `YYYY-MM-DD` rendering used for the summary `date`
column. -/
def strftimeYMD (dt : PyDateTime) : String :=
  String.mk (pad4 dt.year ++ '-' :: pad2 dt.month ++ '-' :: pad2 dt.day)

/-- A row of the `messages` table (`CREATE_MESSAGES_TABLE`).  `is_bot`
and `is_command` are the INTEGER `0/1` values written by
`store_message`; `created_at` carries the datetime whose `isoformat`
TEXT is stored in the column. -/
structure MessageRow where
  id : String
  author_id : String
  author_name : String
  channel_id : String
  channel_name : String
  guild_id : Option String
  guild_name : Option String
  content : String
  created_at : PyDateTime
  is_bot : Nat
  is_command : Nat
  command_type : Option String
deriving DecidableEq

/-- A row of the `channel_summaries` table
(`CREATE_CHANNEL_SUMMARIES_TABLE`).  `rowid` models the AUTOINCREMENT
surrogate key. -/
structure SummaryRow where
  rowid : Nat
  channel_id : String
  channel_name : String
  guild_id : Option String
  guild_name : Option String
  date : String
  summary_text : String
  message_count : Int
  active_users : Nat
  active_users_list : String
  created_at : String
  metadata : Option String
deriving DecidableEq

/-- The database file contents: both tables, rows in rowid order. -/
structure DBState where
  messages : List MessageRow
  summaries : List SummaryRow
deriving DecidableEq

/-- `store_message`: inserts one row; a duplicate primary key raises
`sqlite3.IntegrityError`, caught and turned into `False` with the
transaction rolled back; any other storage failure (`fail`) is also
caught and turned into `False`.  Returns the success flag and the
resulting database. -/
def store_message (fail : Bool) (db : DBState)
    (message_id author_id author_name channel_id channel_name content : String)
    (created_at : PyDateTime)
    (guild_id guild_name : Option String)
    (is_bot is_command : Bool)
    (command_type : Option String) : Bool × DBState :=
  if fail then (false, db)
  else if db.messages.any (fun r => r.id == message_id) then (false, db)
  else
    (true, { db with messages := db.messages ++
      [{ id := message_id, author_id := author_id, author_name := author_name,
         channel_id := channel_id, channel_name := channel_name,
         guild_id := guild_id, guild_name := guild_name, content := content,
         created_at := created_at,
         is_bot := if is_bot then 1 else 0,
         is_command := if is_command then 1 else 0,
         command_type := command_type }] })

/-- `get_message_count`: `SELECT COUNT(*) FROM messages`; `0` on
failure. -/
def get_message_count (fail : Bool) (db : DBState) : Nat :=
  if fail then 0 else db.messages.length

/-- `get_user_message_count`: `SELECT COUNT(*) FROM messages WHERE
author_id = ?`; `0` on failure. -/
def get_user_message_count (fail : Bool) (db : DBState) (user_id : String) : Nat :=
  if fail then 0
  else (db.messages.filter (fun r => r.author_id == user_id)).length

/-- The five-column projection produced by
`get_channel_messages_for_timeframe` (the Python code turns the stored
`created_at` TEXT back into a datetime with `datetime.fromisoformat`,
the inverse of the `isoformat` applied at store time). -/
structure MsgProj where
  author_name : String
  content : String
  created_at : PyDateTime
  is_bot : Bool
  is_command : Bool
deriving DecidableEq

/-- Row-to-dictionary conversion of `get_channel_messages_for_timeframe`
(`bool(row[..])` on the stored 0/1 INTEGER values). -/
def projMsg (r : MessageRow) : MsgProj :=
  { author_name := r.author_name, content := r.content,
    created_at := r.created_at,
    is_bot := r.is_bot != 0, is_command := r.is_command != 0 }

/-- SQL `ORDER BY created_at ASC` comparison on the stored TEXT. -/
def createdLe (a b : MessageRow) : Bool :=
  strLeB a.created_at.isoformat b.created_at.isoformat

/-- `get_channel_messages_for_timeframe`: shifts both bounds by
`timedelta(hours=5)` ("local is UTC-5"), renders them with `isoformat`,
then runs `SELECT author_name, content, created_at, is_bot, is_command
FROM messages WHERE channel_id = ? AND created_at BETWEEN ? AND ?
ORDER BY created_at ASC`.  Returns `[]` on failure. -/
def get_channel_messages_for_timeframe (fail : Bool) (db : DBState)
    (channel_id : String) (start_date end_date : PyDateTime) : List MsgProj :=
  if fail then []
  else
    let start_date_utc := (addHours start_date 5).isoformat
    let end_date_utc := (addHours end_date 5).isoformat
    ((db.messages.filter (fun r =>
        r.channel_id == channel_id &&
        (strLeB start_date_utc r.created_at.isoformat &&
         strLeB r.created_at.isoformat end_date_utc))).mergeSort
      createdLe).map projMsg

/-- `get_channel_messages_for_day`: builds `datetime(Y, M, D, 0, 0, 0)`
and `datetime(Y, M, D, 23, 59, 59, 999999)` from the date argument and
delegates to the timeframe query. -/
def get_channel_messages_for_day (fail : Bool) (db : DBState)
    (channel_id : String) (date : PyDateTime) : List MsgProj :=
  get_channel_messages_for_timeframe fail db channel_id
    { year := date.year, month := date.month, day := date.day,
      hour := 0, minute := 0, second := 0, microsecond := 0 }
    { year := date.year, month := date.month, day := date.day,
      hour := 23, minute := 59, second := 59, microsecond := 999999 }

/-- `get_channel_messages_for_week`: `end = start + timedelta(days=6,
hours=23, minutes=59, seconds=59, microseconds=999999)`, then delegates
to the timeframe query. -/
def get_channel_messages_for_week (fail : Bool) (db : DBState)
    (channel_id : String) (start_date : PyDateTime) : List MsgProj :=
  get_channel_messages_for_timeframe fail db channel_id start_date
    (addMicros start_date ((((6 * 24 + 23) * 60 + 59) * 60 + 59) * 1000000 + 999999))

/-- The seven-column projection produced by
`get_messages_for_time_range`. -/
structure MsgProjFull where
  id : String
  author_id : String
  author_name : String
  content : String
  created_at : PyDateTime
  is_bot : Bool
  is_command : Bool
deriving DecidableEq

/-- Row-to-dictionary conversion of `get_messages_for_time_range`. -/
def projFull (r : MessageRow) : MsgProjFull :=
  { id := r.id, author_id := r.author_id, author_name := r.author_name,
    content := r.content, created_at := r.created_at,
    is_bot := r.is_bot != 0, is_command := r.is_command != 0 }

/-- One value of the `messages_by_channel` dictionary built by
`get_messages_for_time_range`. -/
structure ChannelGroup where
  channel_id : String
  channel_name : String
  guild_id : Option String
  guild_name : Option String
  messages : List MsgProjFull
deriving DecidableEq

/-- SQL `ORDER BY channel_id, created_at ASC` comparison. -/
def chanCreatedLe (a b : MessageRow) : Bool :=
  strLtB a.channel_id b.channel_id ||
    (a.channel_id == b.channel_id &&
     strLeB a.created_at.isoformat b.created_at.isoformat)

/-- The loop body of `get_messages_for_time_range`: a Python dict keyed
by `channel_id` (insertion-ordered association list); a fresh key
appends a new entry carrying the channel identity of the current row, an
existing key gets the projected row appended to its `messages`. -/
def addRowToGroups (acc : List (String × ChannelGroup)) (r : MessageRow) :
    List (String × ChannelGroup) :=
  if acc.any (fun p => p.1 == r.channel_id) then
    acc.map (fun p =>
      if p.1 == r.channel_id then
        (p.1, { p.2 with messages := p.2.messages ++ [projFull r] })
      else p)
  else
    acc ++ [(r.channel_id,
      { channel_id := r.channel_id, channel_name := r.channel_name,
        guild_id := r.guild_id, guild_name := r.guild_name,
        messages := [projFull r] })]

/-- `get_messages_for_time_range`: renders the bounds with `isoformat`
(no timezone shift), runs `SELECT … FROM messages WHERE created_at
BETWEEN ? AND ? ORDER BY channel_id, created_at ASC`, then folds the
rows into the `messages_by_channel` dict.  Returns the empty mapping on
failure. -/
def get_messages_for_time_range (fail : Bool) (db : DBState)
    (start_time end_time : PyDateTime) : List (String × ChannelGroup) :=
  if fail then []
  else
    let start_date_str := start_time.isoformat
    let end_date_str := end_time.isoformat
    ((db.messages.filter (fun r =>
        strLeB start_date_str r.created_at.isoformat &&
        strLeB r.created_at.isoformat end_date_str)).mergeSort
      chanCreatedLe).foldl addRowToGroups []

/-- `delete_messages_older_than`: `SELECT COUNT(*) FROM messages WHERE
created_at < ?` followed by `DELETE FROM messages WHERE created_at < ?`
in the same transaction; returns the count, `0` on failure (transaction
rolled back). -/
def delete_messages_older_than (fail : Bool) (db : DBState)
    (cutoff_time : PyDateTime) : Nat × DBState :=
  if fail then (0, db)
  else
    let cutoff_time_str := cutoff_time.isoformat
    ((db.messages.filter (fun r =>
        strLtB r.created_at.isoformat cutoff_time_str)).length,
     { db with messages := db.messages.filter (fun r =>
        !strLtB r.created_at.isoformat cutoff_time_str) })

/-! JSON serialization (`json.dumps` / `json.loads`), embedded for the
two shapes the module writes: a list of user-name strings
(`active_users_list`) and a flat string-valued object (`metadata`, whose
values the claims never inspect and which the embedding models as
strings).  `json.dumps` uses its defaults: `ensure_ascii=True` (every
character outside `0x20..0x7e` is `\uXXXX`-escaped, astral characters as
a surrogate pair) and item separator `", "` / key separator `": "`. -/

/-- Lowercase hexadecimal digit (for `n < 16`). -/
def hexDig (n : Nat) : Char :=
  if n < 10 then Char.ofNat (48 + n) else Char.ofNat (87 + n)

/-- Four lowercase hex digits of `v < 0x10000` (the `XXXX` of `\uXXXX`). -/
def hex4 (v : Nat) : List Char :=
  [hexDig (v / 4096 % 16), hexDig (v / 256 % 16), hexDig (v / 16 % 16),
   hexDig (v % 16)]

/-- Per-character encoding of `json.encoder.py_encode_basestring_ascii`:
quote and backslash get two-character escapes, the control characters
with short escapes use them, every other character in `0x20..0x7e`
stands for itself, every other BMP character becomes `\uXXXX`, and every
astral character becomes a UTF-16 surrogate pair of `\uXXXX` escapes. -/
def escapeChar (c : Char) : List Char :=
  if c == '"' then ['\\', '"']
  else if c == '\\' then ['\\', '\\']
  else if c.toNat == 8 then ['\\', 'b']
  else if c.toNat == 9 then ['\\', 't']
  else if c.toNat == 10 then ['\\', 'n']
  else if c.toNat == 12 then ['\\', 'f']
  else if c.toNat == 13 then ['\\', 'r']
  else if 32 ≤ c.toNat ∧ c.toNat ≤ 126 then [c]
  else if c.toNat < 65536 then '\\' :: 'u' :: hex4 c.toNat
  else
    let t := c.toNat - 65536
    '\\' :: 'u' :: hex4 (55296 + t / 1024) ++ '\\' :: 'u' :: hex4 (56320 + t % 1024)

/-- Escape every character of a string body. -/
def escList : List Char → List Char
  | [] => []
  | c :: cs => escapeChar c ++ escList cs

/-- JSON rendering of one string: `"` body `"`. -/
def encodeStringChars (s : String) : List Char :=
  '"' :: (escList s.data ++ ['"'])

/-- Join pre-rendered items with the default `", "` separator. -/
def joinItems : List (List Char) → List Char
  | [] => []
  | [x] => x
  | x :: y :: rest => x ++ ',' :: ' ' :: joinItems (y :: rest)

/-- `json.dumps` of a list of strings. -/
def json_dumps_strlist (l : List String) : String :=
  String.mk ('[' :: (joinItems (l.map encodeStringChars) ++ [']']))

/-- `json.dumps` of a flat string-valued object (used for `metadata`). -/
def json_dumps_obj (m : List (String × String)) : String :=
  String.mk (Char.ofNat 123 ::
    (joinItems (m.map (fun kv =>
      encodeStringChars kv.1 ++ ':' :: ' ' :: encodeStringChars kv.2)) ++
     [Char.ofNat 125]))

/-- Decode a single-character JSON escape (`\"`, `\\`, `\/`, `\b`, `\f`,
`\n`, `\r`, `\t`). -/
def escDecode (e : Char) : Option Char :=
  if e == '"' then some '"'
  else if e == '\\' then some '\\'
  else if e == '/' then some '/'
  else if e == 'b' then some (Char.ofNat 8)
  else if e == 'f' then some (Char.ofNat 12)
  else if e == 'n' then some (Char.ofNat 10)
  else if e == 'r' then some (Char.ofNat 13)
  else if e == 't' then some (Char.ofNat 9)
  else none

/-- Value of one hexadecimal digit character. -/
def hexVal (c : Char) : Option Nat :=
  let n := c.toNat
  if 48 ≤ n ∧ n ≤ 57 then some (n - 48)
  else if 97 ≤ n ∧ n ≤ 102 then some (n - 87)
  else if 65 ≤ n ∧ n ≤ 70 then some (n - 55)
  else none

/-- Parse a JSON string body up to and including the closing quote;
returns the decoded characters and the unconsumed remainder.  A high
surrogate escape must be followed by a low surrogate escape (the pair
decodes to one astral character); a lone low surrogate is rejected. -/
def parseStrBody : List Char → Option (List Char × List Char)
  | [] => none
  | '"' :: rest => some ([], rest)
  | '\\' :: 'u' :: h1 :: h2 :: h3 :: h4 :: rest =>
    match hexVal h1, hexVal h2, hexVal h3, hexVal h4 with
    | some a, some b, some c, some d =>
      let v := a * 4096 + b * 256 + c * 16 + d
      if 55296 ≤ v ∧ v ≤ 56319 then
        match rest with
        | '\\' :: 'u' :: g1 :: g2 :: g3 :: g4 :: rest2 =>
          match hexVal g1, hexVal g2, hexVal g3, hexVal g4 with
          | some a2, some b2, some c2, some d2 =>
            let w := a2 * 4096 + b2 * 256 + c2 * 16 + d2
            if 56320 ≤ w ∧ w ≤ 57343 then
              match parseStrBody rest2 with
              | some (s, r) =>
                some (Char.ofNat (65536 + (v - 55296) * 1024 + (w - 56320)) :: s, r)
              | none => none
            else none
          | _, _, _, _ => none
        | _ => none
      else if 56320 ≤ v ∧ v ≤ 57343 then none
      else
        match parseStrBody rest with
        | some (s, r) => some (Char.ofNat v :: s, r)
        | none => none
    | _, _, _, _ => none
  | '\\' :: e :: rest =>
    match escDecode e with
    | some c =>
      match parseStrBody rest with
      | some (s, r) => some (c :: s, r)
      | none => none
    | none => none
  | c :: rest =>
    match parseStrBody rest with
    | some (s, r) => some (c :: s, r)
    | none => none

/-- JSON whitespace test. -/
def isWs (c : Char) : Bool := c == ' ' || c == '\t' || c == '\n' || c == '\r'

/-- Drop leading JSON whitespace. -/
def skipWs : List Char → List Char
  | [] => []
  | c :: rest => if isWs c then skipWs rest else c :: rest

/-- Parse the elements of a non-empty JSON string array, starting after
the opening `[`; consumes up to and including the closing `]`.  `fuel`
bounds the number of elements (one unit per element). -/
def parseElemsFuel : Nat → List Char → Option (List (List Char) × List Char)
  | 0, _ => none
  | fuel + 1, l =>
    match skipWs l with
    | '"' :: body =>
      match parseStrBody body with
      | some (s, r1) =>
        match skipWs r1 with
        | ',' :: r2 =>
          match parseElemsFuel fuel r2 with
          | some (items, rest) => some (s :: items, rest)
          | none => none
        | ']' :: r2 => some ([s], r2)
        | _ => none
      | none => none
    | _ => none

/-- `json.loads` restricted to documents denoting an array of strings
(the only shape this module ever deserializes from
`active_users_list`). -/
def json_loads_strlist (s : String) : Option (List String) :=
  match skipWs s.data with
  | '[' :: rest =>
    match skipWs rest with
    | ']' :: r2 => if skipWs r2 == ([] : List Char) then some [] else none
    | _ =>
      match parseElemsFuel (rest.length + 1) rest with
      | some (items, r) =>
        if skipWs r == ([] : List Char) then
          some (items.map (fun cs => String.mk cs))
        else none
      | none => none
  | _ => none

/-- `store_channel_summary`: serializes `active_users` with
`json.dumps`, serializes `metadata` only when it is truthy (a `None` or
empty dict both store SQL `NULL`), renders the date as `YYYY-MM-DD`,
stamps `created_at` with `datetime.now().isoformat()`, and inserts one
row.  Returns `False` (with the transaction rolled back) on storage
failure. -/
def store_channel_summary (fail : Bool) (db : DBState) (now : PyDateTime)
    (channel_id channel_name : String) (date : PyDateTime)
    (summary_text : String) (message_count : Int) (active_users : List String)
    (guild_id guild_name : Option String)
    (metadata : Option (List (String × String))) : Bool × DBState :=
  if fail then (false, db)
  else
    let active_users_json := json_dumps_strlist active_users
    let metadata_json :=
      match metadata with
      | some m => if m.isEmpty then none else some (json_dumps_obj m)
      | none => none
    let date_str := strftimeYMD date
    let created_at := now.isoformat
    (true, { db with summaries := db.summaries ++
      [{ rowid := db.summaries.length + 1, channel_id := channel_id,
         channel_name := channel_name, guild_id := guild_id,
         guild_name := guild_name, date := date_str,
         summary_text := summary_text, message_count := message_count,
         active_users := active_users.length,
         active_users_list := active_users_json,
         created_at := created_at, metadata := metadata_json }] })

/-- One row of the `get_active_channels` result. -/
structure ActiveChannel where
  channel_id : String
  channel_name : String
  guild_id : Option String
  guild_name : Option String
  message_count : Nat
deriving DecidableEq

/-- SQL `GROUP BY channel_id` key scan: distinct channel ids in first-seen
(scan) order. -/
def firstKeys (l : List MessageRow) : List String :=
  l.foldl (fun ks r => if ks.contains r.channel_id then ks else ks ++ [r.channel_id]) []

/-- `ORDER BY message_count DESC` comparison. -/
def countGe (a b : ActiveChannel) : Bool := decide (b.message_count ≤ a.message_count)

/-- `get_active_channels`: computes `cutoff = (now -
timedelta(hours=hours)).isoformat()`, then `SELECT channel_id,
channel_name, guild_id, guild_name, COUNT(*) AS message_count FROM
messages WHERE created_at >= ? GROUP BY channel_id ORDER BY
message_count DESC`.  SQLite fills the bare (non-aggregated) columns of
each group from an unspecified row of the group; the embedding realises
that choice as the group's first row in scan order.  Returns `[]` on
failure. -/
def get_active_channels (fail : Bool) (db : DBState) (now : PyDateTime)
    (hours : Nat) : List ActiveChannel :=
  if fail then []
  else
    let cutoff_time := (subHours now hours).isoformat
    let rows := db.messages.filter (fun r =>
      strLeB cutoff_time r.created_at.isoformat)
    ((firstKeys rows).filterMap (fun c =>
      match rows.filter (fun r => r.channel_id == c) with
      | [] => none
      | r :: rs =>
        some { channel_id := c, channel_name := r.channel_name,
               guild_id := r.guild_id, guild_name := r.guild_name,
               message_count := (r :: rs).length })).mergeSort countGe

/-- The group that `get_messages_for_time_range`'s dict holds at key `c`
after scanning `l`: channel identity from the first row of the channel
in scan order, messages in scan order.  (Spec-side characterization of
the `addRowToGroups` fold; the `[]` branch is never reached at a key of
the dict.) -/
def groupFor (l : List MessageRow) (c : String) : ChannelGroup :=
  match l.filter (fun r => r.channel_id == c) with
  | [] => { channel_id := c, channel_name := "", guild_id := none,
            guild_name := none, messages := [] }
  | r :: rs =>
    { channel_id := c, channel_name := r.channel_name,
      guild_id := r.guild_id, guild_name := r.guild_name,
      messages := (r :: rs).map projFull }

/-- Spec-side form of the whole dict built from scan `l`: one entry per
first-seen channel id. -/
def groupSpec (l : List MessageRow) : List (String × ChannelGroup) :=
  (firstKeys l).map (fun c => (c, groupFor l c))

/-! Concrete sample data used by the witness theorems. -/

/-- Sample timestamp (2025-10-11T12:00:00). -/
def dtT1 : PyDateTime :=
  { year := 2025, month := 10, day := 11, hour := 12, minute := 0,
    second := 0, microsecond := 0 }

/-- Sample timestamp (2025-10-11T13:00:00). -/
def dtT2 : PyDateTime :=
  { year := 2025, month := 10, day := 11, hour := 13, minute := 0,
    second := 0, microsecond := 0 }

/-- Sample "current time" (2025-10-12T00:00:00). -/
def dtNow : PyDateTime :=
  { year := 2025, month := 10, day := 12, hour := 0, minute := 0,
    second := 0, microsecond := 0 }

/-- Sample range start (2025-10-11T00:00:00). -/
def dtS : PyDateTime :=
  { year := 2025, month := 10, day := 11, hour := 0, minute := 0,
    second := 0, microsecond := 0 }

/-- Sample stored message row. -/
def rowM1 : MessageRow :=
  { id := "m1", author_id := "u1", author_name := "alice",
    channel_id := "c1", channel_name := "general", guild_id := none,
    guild_name := none, content := "hello", created_at := dtT1,
    is_bot := 0, is_command := 0, command_type := none }

/-- Second sample stored message row (other channel). -/
def rowM2 : MessageRow :=
  { id := "m2", author_id := "u2", author_name := "bob",
    channel_id := "c2", channel_name := "random", guild_id := some "g1",
    guild_name := some "Guild", content := "hi", created_at := dtT2,
    is_bot := 1, is_command := 0, command_type := none }

/-- Sample database with two messages in two channels. -/
def dbW : DBState := { messages := [rowM1, rowM2], summaries := [] }

/-! Order-theoretic facts about the text comparison used by SQLite. -/

theorem charListLt_trans : ∀ a b c : List Char,
    charListLt a b = true → charListLt b c = true → charListLt a c = true := by
  intro a
  induction a with
  | nil =>
    intro b c h1 h2
    cases b with
    | nil => simp [charListLt] at h1
    | cons q qs =>
      cases c with
      | nil => simp [charListLt] at h2
      | cons r rs => simp [charListLt]
  | cons p ps ih =>
    intro b c h1 h2
    cases b with
    | nil => simp [charListLt] at h1
    | cons q qs =>
      cases c with
      | nil => simp [charListLt] at h2
      | cons r rs =>
        simp only [charListLt, Bool.or_eq_true, Bool.and_eq_true,
          decide_eq_true_eq] at h1 h2 ⊢
        rcases h1 with h1 | ⟨h1e, h1r⟩
        · rcases h2 with h2 | ⟨h2e, h2r⟩
          · exact Or.inl (by omega)
          · exact Or.inl (by omega)
        · rcases h2 with h2 | ⟨h2e, h2r⟩
          · exact Or.inl (by omega)
          · exact Or.inr ⟨by omega, ih qs rs h1r h2r⟩

theorem charListLt_asymm : ∀ a b : List Char,
    charListLt a b = true → charListLt b a = false := by
  intro a
  induction a with
  | nil =>
    intro b h1
    cases b with
    | nil => simp [charListLt] at h1
    | cons q qs => simp [charListLt]
  | cons p ps ih =>
    intro b h1
    cases b with
    | nil => simp [charListLt] at h1
    | cons q qs =>
      simp only [charListLt, Bool.or_eq_true, Bool.and_eq_true,
        decide_eq_true_eq] at h1
      simp only [charListLt, Bool.or_eq_false_iff, Bool.and_eq_false_iff,
        decide_eq_false_iff_not]
      rcases h1 with h1 | ⟨h1e, h1r⟩
      · exact ⟨by omega, Or.inl (by omega)⟩
      · exact ⟨by omega, Or.inr (ih qs h1r)⟩

theorem charListLt_tri : ∀ a b : List Char,
    charListLt a b = true ∨ a = b ∨ charListLt b a = true := by
  intro a
  induction a with
  | nil =>
    intro b
    cases b with
    | nil => exact Or.inr (Or.inl rfl)
    | cons q qs => exact Or.inl (by simp [charListLt])
  | cons p ps ih =>
    intro b
    cases b with
    | nil => exact Or.inr (Or.inr (by simp [charListLt]))
    | cons q qs =>
      rcases Nat.lt_trichotomy p.toNat q.toNat with hlt | heq | hgt
      · exact Or.inl (by simp [charListLt, hlt])
      · have hpq : p = q := by
          rw [← Char.ofNat_toNat p, ← Char.ofNat_toNat q, heq]
        rcases ih qs with h | h | h
        · exact Or.inl (by simp [charListLt, heq, h])
        · exact Or.inr (Or.inl (by rw [hpq, h]))
        · exact Or.inr (Or.inr (by simp [charListLt, heq.symm, h]))
      · exact Or.inr (Or.inr (by simp [charListLt, hgt]))

theorem string_tri (a b : String) :
    strLtB a b = true ∨ a = b ∨ strLtB b a = true := by
  rcases charListLt_tri a.data b.data with h | h | h
  · exact Or.inl h
  · refine Or.inr (Or.inl ?_)
    cases a with
    | mk da =>
      cases b with
      | mk db => exact congrArg String.mk h
  · exact Or.inr (Or.inr h)

theorem strLtB_asymm {a b : String} (h : strLtB a b = true) :
    strLtB b a = false :=
  charListLt_asymm a.data b.data h

theorem strLtB_trans {a b c : String} (h1 : strLtB a b = true)
    (h2 : strLtB b c = true) : strLtB a c = true :=
  charListLt_trans _ _ _ h1 h2

theorem strLeB_eq_true_iff {a b : String} :
    strLeB a b = true ↔ strLtB b a = false := by
  simp [strLeB]

theorem strLeB_trans {a b c : String} (h1 : strLeB a b = true)
    (h2 : strLeB b c = true) : strLeB a c = true := by
  rw [strLeB_eq_true_iff] at h1 h2 ⊢
  cases hca : strLtB c a with
  | false => rfl
  | true =>
    rcases string_tri a b with h | h | h
    · have hcb := strLtB_trans hca h
      rw [hcb] at h2
      exact h2
    · rw [h] at hca
      rw [hca] at h2
      exact h2
    · rw [h] at h1
      exact h1

theorem strLeB_total (a b : String) : (strLeB a b || strLeB b a) = true := by
  simp only [strLeB, Bool.or_eq_true, Bool.not_eq_true']
  rcases string_tri a b with h | h | h
  · exact Or.inl (strLtB_asymm h)
  · subst h
    left
    cases hab : strLtB a a with
    | false => rfl
    | true => exact hab.symm.trans (strLtB_asymm hab)
  · exact Or.inr (strLtB_asymm h)

theorem strLeB_of_strLtB {a b : String} (h : strLtB a b = true) :
    strLeB a b = true := by
  rw [strLeB_eq_true_iff]
  exact charListLt_asymm _ _ h

theorem createdLe_trans : ∀ a b c : MessageRow,
    createdLe a b = true → createdLe b c = true → createdLe a c = true := by
  intro a b c h1 h2
  exact strLeB_trans h1 h2

theorem createdLe_total : ∀ a b : MessageRow,
    (createdLe a b || createdLe b a) = true := by
  intro a b
  exact strLeB_total _ _

theorem chanCreatedLe_trans : ∀ a b c : MessageRow,
    chanCreatedLe a b = true → chanCreatedLe b c = true →
    chanCreatedLe a c = true := by
  intro a b c h1 h2
  simp only [chanCreatedLe, Bool.or_eq_true, Bool.and_eq_true,
    beq_iff_eq] at h1 h2 ⊢
  rcases h1 with h1 | ⟨h1e, h1r⟩
  · rcases h2 with h2 | ⟨h2e, h2r⟩
    · exact Or.inl (strLtB_trans h1 h2)
    · exact Or.inl (h2e ▸ h1)
  · rcases h2 with h2 | ⟨h2e, h2r⟩
    · exact Or.inl (h1e ▸ h2)
    · exact Or.inr ⟨h1e.trans h2e, strLeB_trans h1r h2r⟩

theorem chanCreatedLe_total : ∀ a b : MessageRow,
    (chanCreatedLe a b || chanCreatedLe b a) = true := by
  intro a b
  simp only [chanCreatedLe, Bool.or_eq_true, Bool.and_eq_true, beq_iff_eq]
  rcases string_tri a.channel_id b.channel_id with h | h | h
  · exact Or.inl (Or.inl h)
  · rcases Bool.or_eq_true .. ▸ strLeB_total a.created_at.isoformat
      b.created_at.isoformat with hle | hle
    · exact Or.inl (Or.inr ⟨h, hle⟩)
    · exact Or.inr (Or.inr ⟨h.symm, hle⟩)
  · exact Or.inr (Or.inl h)

theorem countGe_trans : ∀ a b c : ActiveChannel,
    countGe a b = true → countGe b c = true → countGe a c = true := by
  intro a b c h1 h2
  simp only [countGe, decide_eq_true_eq] at h1 h2 ⊢
  omega

theorem countGe_total : ∀ a b : ActiveChannel,
    (countGe a b || countGe b a) = true := by
  intro a b
  simp only [countGe, Bool.or_eq_true, decide_eq_true_eq]
  omega

/-- C1: For every channel_id and bounds start/end,
`get_channel_messages_for_timeframe` returns exactly the stored messages
of that channel whose `created_at` (as ISO-8601 text) lies within the
inclusive interval [start + 5 hours, end + 5 hours], projected to
(author_name, content, created_at, is_bot, is_command), ordered
ascending by `created_at`. -/
theorem timeframe_query_spec (db : DBState) (ch : String) (s e : PyDateTime) :
    (get_channel_messages_for_timeframe false db ch s e).Pairwise
      (fun a b => strLeB a.created_at.isoformat b.created_at.isoformat = true) ∧
    (get_channel_messages_for_timeframe false db ch s e).Perm
      ((db.messages.filter (fun r =>
        r.channel_id == ch &&
        (strLeB (addHours s 5).isoformat r.created_at.isoformat &&
         strLeB r.created_at.isoformat (addHours e 5).isoformat))).map projMsg) := by
  have hdef : get_channel_messages_for_timeframe false db ch s e =
      ((db.messages.filter (fun r =>
        r.channel_id == ch &&
        (strLeB (addHours s 5).isoformat r.created_at.isoformat &&
         strLeB r.created_at.isoformat (addHours e 5).isoformat))).mergeSort
        createdLe).map projMsg := rfl
  rw [hdef]
  constructor
  · exact List.Pairwise.map _ (fun a b h => h)
      (List.sorted_mergeSort createdLe_trans createdLe_total _)
  · exact (List.mergeSort_perm _ createdLe).map projMsg

/-- C8: For every channel_id and date D, `get_channel_messages_for_day`
returns exactly the result of `get_channel_messages_for_timeframe`
called with start = D at 00:00:00.000000 and end = D at 23:59:59.999999
(local time). -/
theorem day_wrapper_refinement (fail : Bool) (db : DBState) (ch : String)
    (date : PyDateTime) :
    get_channel_messages_for_day fail db ch date =
    get_channel_messages_for_timeframe fail db ch
      { year := date.year, month := date.month, day := date.day,
        hour := 0, minute := 0, second := 0, microsecond := 0 }
      { year := date.year, month := date.month, day := date.day,
        hour := 23, minute := 59, second := 59, microsecond := 999999 } := rfl

/-- C10: For every channel_id and every pair of datetime arguments that
share the same calendar date (year, month, day) but differ in time of
day, `get_channel_messages_for_day` returns identical results: the
time-of-day of its date argument is ignored. -/
theorem day_time_ignored_spec (fail : Bool) (db : DBState) (ch : String)
    (d1 d2 : PyDateTime) (hy : d1.year = d2.year) (hm : d1.month = d2.month)
    (hd : d1.day = d2.day) (_hne : d1 ≠ d2) :
    get_channel_messages_for_day fail db ch d1 =
    get_channel_messages_for_day fail db ch d2 := by
  unfold get_channel_messages_for_day
  rw [hy, hm, hd]

/-- Witness for C10 at two concrete datetimes sharing 2025-10-12 but
with different times of day. -/
theorem day_time_ignored_witness :
    get_channel_messages_for_day false dbW "c1"
      { year := 2025, month := 10, day := 12, hour := 3, minute := 4,
        second := 5, microsecond := 6 } =
    get_channel_messages_for_day false dbW "c1"
      { year := 2025, month := 10, day := 12, hour := 7, minute := 8,
        second := 9, microsecond := 10 } :=
  day_time_ignored_spec false dbW "c1" _ _ rfl rfl rfl (by decide)

/-- C5: With the failure oracle set (any storage failure inside the
`try:` block), no operation propagates an exception: each returns its
sentinel value — `False` for the two store operations (with the database
unchanged), `0` for the counts and the delete, `[]` for list-returning
queries, and the empty mapping for `get_messages_for_time_range`. -/
theorem failure_sentinel_spec (db : DBState)
    (mid aid aname cid cname content : String) (ts now s e cutoff d : PyDateTime)
    (gid gname : Option String) (isb isc : Bool) (ctype : Option String)
    (uid : String) (st : String) (mc : Int) (au : List String)
    (meta : Option (List (String × String))) (hours : Nat) :
    store_message true db mid aid aname cid cname content ts gid gname
        isb isc ctype = (false, db) ∧
    store_channel_summary true db now cid cname d st mc au gid gname meta =
        (false, db) ∧
    get_message_count true db = 0 ∧
    get_user_message_count true db uid = 0 ∧
    get_channel_messages_for_timeframe true db cid s e = [] ∧
    get_channel_messages_for_day true db cid d = [] ∧
    get_channel_messages_for_week true db cid s = [] ∧
    get_messages_for_time_range true db s e = [] ∧
    delete_messages_older_than true db cutoff = (0, db) ∧
    get_active_channels true db now hours = [] :=
  ⟨rfl, rfl, rfl, rfl, rfl, rfl, rfl, rfl, rfl, rfl⟩

/-- C3: A `store_message` call whose id is already present in the store
returns False (no exception) and leaves the store — hence every existing
row and `get_message_count` — unchanged; a call with a fresh id returns
True. -/
theorem store_message_duplicate_spec (db : DBState)
    (mid aid aname cid cname content : String) (ts : PyDateTime)
    (gid gname : Option String) (isb isc : Bool) (ctype : Option String) :
    (db.messages.any (fun r => r.id == mid) = true →
      store_message false db mid aid aname cid cname content ts gid gname
          isb isc ctype = (false, db) ∧
      get_message_count false (store_message false db mid aid aname cid cname
          content ts gid gname isb isc ctype).2 = get_message_count false db) ∧
    (db.messages.any (fun r => r.id == mid) = false →
      (store_message false db mid aid aname cid cname content ts gid gname
          isb isc ctype).1 = true) := by
  constructor
  · intro h
    simp [store_message, h]
  · intro h
    simp [store_message, h]

/-- Witness for C3: in the sample store, re-inserting id "m1" is
rejected with the store unchanged, and inserting the fresh id "m3"
succeeds. -/
theorem store_message_duplicate_witness :
    (store_message false dbW "m1" "u9" "zoe" "c9" "chat" "dup" dtT2 none none
        false false none = (false, dbW) ∧
     get_message_count false (store_message false dbW "m1" "u9" "zoe" "c9"
        "chat" "dup" dtT2 none none false false none).2 =
       get_message_count false dbW) ∧
    (store_message false dbW "m3" "u9" "zoe" "c9" "chat" "new" dtT2 none none
        false false none).1 = true :=
  ⟨(store_message_duplicate_spec dbW "m1" "u9" "zoe" "c9" "chat" "dup" dtT2
      none none false false none).1 (by decide),
   (store_message_duplicate_spec dbW "m3" "u9" "zoe" "c9" "chat" "new" dtT2
      none none false false none).2 (by decide)⟩

/-- C4: `delete_messages_older_than` removes all and only the rows whose
`created_at` text is strictly below the cutoff's ISO-8601 form, returns
the number of rows removed, an immediately repeated call with the same
cutoff returns 0, and on failure it returns 0 with the store intact. -/
theorem delete_older_spec (db : DBState) (cutoff : PyDateTime) :
    ((delete_messages_older_than false db cutoff).2).messages =
      db.messages.filter (fun r =>
        !strLtB r.created_at.isoformat cutoff.isoformat) ∧
    (delete_messages_older_than false db cutoff).1 =
      (db.messages.filter (fun r =>
        strLtB r.created_at.isoformat cutoff.isoformat)).length ∧
    (delete_messages_older_than false db cutoff).1 +
      ((delete_messages_older_than false db cutoff).2).messages.length =
      db.messages.length ∧
    (delete_messages_older_than false
      (delete_messages_older_than false db cutoff).2 cutoff).1 = 0 ∧
    delete_messages_older_than true db cutoff = (0, db) := by
  refine ⟨rfl, rfl, ?_, ?_, rfl⟩
  · exact (@List.length_eq_length_filter_add MessageRow db.messages
      (fun r => strLtB r.created_at.isoformat cutoff.isoformat)).symm
  · show ((db.messages.filter (fun r =>
        !strLtB r.created_at.isoformat cutoff.isoformat)).filter (fun r =>
        strLtB r.created_at.isoformat cutoff.isoformat)).length = 0
    rw [List.filter_filter]
    simp

/-- C9: Storing a summary with metadata equal to the empty map persists
NULL in the metadata column — the very same row (and store) as when
metadata is not supplied at all, so a caller cannot distinguish the two
cases from the stored row. -/
theorem empty_metadata_null_spec (db : DBState) (now : PyDateTime)
    (cid cname : String) (d : PyDateTime) (st : String) (mc : Int)
    (au : List String) (gid gname : Option String) :
    store_channel_summary false db now cid cname d st mc au gid gname
        (some []) =
      store_channel_summary false db now cid cname d st mc au gid gname none ∧
    ∃ r : SummaryRow, ((store_channel_summary false db now cid cname d st mc
        au gid gname (some [])).2).summaries = db.summaries ++ [r] ∧
      r.metadata = none := by
  refine ⟨rfl, ?_⟩
  exact ⟨{ rowid := db.summaries.length + 1, channel_id := cid,
           channel_name := cname, guild_id := gid, guild_name := gname,
           date := strftimeYMD d, summary_text := st, message_count := mc,
           active_users := au.length,
           active_users_list := json_dumps_strlist au,
           created_at := now.isoformat, metadata := none }, rfl, rfl⟩

/-! Round-trip of the JSON string-list encoding: `json.loads` of a
`json.dumps` output recovers the original list. -/

theorem hexVal_hexDig : ∀ n : Nat, n < 16 → hexVal (hexDig n) = some n := by
  decide

theorem char_valid_nat (c : Char) :
    c.toNat < 55296 ∨ (57343 < c.toNat ∧ c.toNat < 1114112) := by
  have h := c.valid
  simp only [UInt32.isValidChar, Nat.isValidChar] at h
  exact h

theorem parseStrBody_escList : ∀ (cs tail : List Char),
    parseStrBody (escList cs ++ '"' :: tail) = some (cs, tail) := by
  intro cs
  induction cs with
  | nil =>
    intro tail
    simp [escList, parseStrBody]
  | cons c cs ih =>
    intro tail
    by_cases hq : c = '"'
    · subst hq
      simp [escList, escapeChar, parseStrBody, escDecode, ih]
    · by_cases hb : c = '\\'
      · subst hb
        simp [escList, escapeChar, parseStrBody, escDecode, ih]
      · by_cases h8 : c.toNat = 8
        · have hc : Char.ofNat 8 = c := by rw [← h8, Char.ofNat_toNat]
          simp [escList, escapeChar, hq, hb, h8, parseStrBody, escDecode, ih]
          exact hc
        · by_cases h9 : c.toNat = 9
          · have hc : Char.ofNat 9 = c := by rw [← h9, Char.ofNat_toNat]
            simp [escList, escapeChar, hq, hb, h8, h9, parseStrBody, escDecode,
              ih]
            exact hc
          · by_cases h10 : c.toNat = 10
            · have hc : Char.ofNat 10 = c := by rw [← h10, Char.ofNat_toNat]
              simp [escList, escapeChar, hq, hb, h8, h9, h10, parseStrBody,
                escDecode, ih]
              exact hc
            · by_cases h12 : c.toNat = 12
              · have hc : Char.ofNat 12 = c := by rw [← h12, Char.ofNat_toNat]
                simp [escList, escapeChar, hq, hb, h8, h9, h10, h12,
                  parseStrBody, escDecode, ih]
                exact hc
              · by_cases h13 : c.toNat = 13
                · have hc : Char.ofNat 13 = c := by
                    rw [← h13, Char.ofNat_toNat]
                  simp [escList, escapeChar, hq, hb, h8, h9, h10, h12, h13,
                    parseStrBody, escDecode, ih]
                  exact hc
                · by_cases hpr : 32 ≤ c.toNat ∧ c.toNat ≤ 126
                  · simp [escList, escapeChar, hq, hb, h8, h9, h10, h12, h13,
                      hpr, parseStrBody, ih]
                  · by_cases hbmp : c.toNat < 65536
                    · -- BMP escape: a single `\uXXXX`
                      have hval := char_valid_nat c
                      have ha := hexVal_hexDig (c.toNat / 4096 % 16) (by omega)
                      have hb2 := hexVal_hexDig (c.toNat / 256 % 16) (by omega)
                      have hc2 := hexVal_hexDig (c.toNat / 16 % 16) (by omega)
                      have hd2 := hexVal_hexDig (c.toNat % 16) (by omega)
                      have hv : c.toNat / 4096 % 16 * 4096 +
                          c.toNat / 256 % 16 * 256 + c.toNat / 16 % 16 * 16 +
                          c.toNat % 16 = c.toNat := by omega
                      have hs1 : ¬ (55296 ≤ c.toNat ∧ c.toNat ≤ 56319) := by
                        omega
                      have hs2 : ¬ (56320 ≤ c.toNat ∧ c.toNat ≤ 57343) := by
                        omega
                      simp [escList, escapeChar, hq, hb, h8, h9, h10, h12, h13,
                        hpr, hbmp, hex4, parseStrBody, ha, hb2, hc2, hd2, hv,
                        hs1, hs2, ih, Char.ofNat_toNat]
                    · -- astral escape: a surrogate pair of `\uXXXX`
                      have hval := char_valid_nat c
                      have hhi : 55296 + (c.toNat - 65536) / 1024 < 65536 := by
                        omega
                      have hlo : 56320 + (c.toNat - 65536) % 1024 < 65536 := by
                        omega
                      have ha := hexVal_hexDig
                        ((55296 + (c.toNat - 65536) / 1024) / 4096 % 16)
                        (by omega)
                      have hb2 := hexVal_hexDig
                        ((55296 + (c.toNat - 65536) / 1024) / 256 % 16)
                        (by omega)
                      have hc2 := hexVal_hexDig
                        ((55296 + (c.toNat - 65536) / 1024) / 16 % 16)
                        (by omega)
                      have hd2 := hexVal_hexDig
                        ((55296 + (c.toNat - 65536) / 1024) % 16) (by omega)
                      have ha3 := hexVal_hexDig
                        ((56320 + (c.toNat - 65536) % 1024) / 4096 % 16)
                        (by omega)
                      have hb3 := hexVal_hexDig
                        ((56320 + (c.toNat - 65536) % 1024) / 256 % 16)
                        (by omega)
                      have hc3 := hexVal_hexDig
                        ((56320 + (c.toNat - 65536) % 1024) / 16 % 16)
                        (by omega)
                      have hd3 := hexVal_hexDig
                        ((56320 + (c.toNat - 65536) % 1024) % 16) (by omega)
                      have hvhi : (55296 + (c.toNat - 65536) / 1024) / 4096 % 16
                            * 4096 +
                          (55296 + (c.toNat - 65536) / 1024) / 256 % 16 * 256 +
                          (55296 + (c.toNat - 65536) / 1024) / 16 % 16 * 16 +
                          (55296 + (c.toNat - 65536) / 1024) % 16 =
                          55296 + (c.toNat - 65536) / 1024 := by omega
                      have hvlo : (56320 + (c.toNat - 65536) % 1024) / 4096 % 16
                            * 4096 +
                          (56320 + (c.toNat - 65536) % 1024) / 256 % 16 * 256 +
                          (56320 + (c.toNat - 65536) % 1024) / 16 % 16 * 16 +
                          (56320 + (c.toNat - 65536) % 1024) % 16 =
                          56320 + (c.toNat - 65536) % 1024 := by omega
                      have hs1 : 55296 ≤ 55296 + (c.toNat - 65536) / 1024 ∧
                          55296 + (c.toNat - 65536) / 1024 ≤ 56319 := by omega
                      have hs3 : 56320 ≤ 56320 + (c.toNat - 65536) % 1024 ∧
                          56320 + (c.toNat - 65536) % 1024 ≤ 57343 := by omega
                      have hrec : 65536 +
                          (55296 + (c.toNat - 65536) / 1024 - 55296) * 1024 +
                          (56320 + (c.toNat - 65536) % 1024 - 56320) =
                          c.toNat := by omega
                      simp [escList, escapeChar, hq, hb, h8, h9, h10, h12, h13,
                        hpr, hbmp, hex4, parseStrBody, ha, hb2, hc2, hd2, ha3,
                        hb3, hc3, hd3, hvhi, hvlo, hs1, hs3, hrec, ih,
                        Char.ofNat_toNat]
                      have harg : 65536 + (c.toNat - 65536) / 1024 * 1024 +
                          (c.toNat - 65536) % 1024 = c.toNat := by omega
                      rw [harg, Char.ofNat_toNat]

theorem skipWs_cons_not {c : Char} (l : List Char) (h : isWs c = false) :
    skipWs (c :: l) = c :: l := by
  simp [skipWs, h]

theorem parseElemsFuel_ws (fuel : Nat) (c : Char) (l : List Char)
    (h : isWs c = true) :
    parseElemsFuel (fuel + 1) (c :: l) = parseElemsFuel (fuel + 1) l := by
  simp [parseElemsFuel, skipWs, h]

theorem parseElemsFuel_cons_quote (f : Nat) (body : List Char) :
    parseElemsFuel (f + 1) ('"' :: body) =
      match parseStrBody body with
      | some (s, r1) =>
        match skipWs r1 with
        | ',' :: r2 =>
          match parseElemsFuel f r2 with
          | some (items, rest) => some (s :: items, rest)
          | none => none
        | ']' :: r2 => some ([s], r2)
        | _ => none
      | none => none := by
  have hsk : skipWs ('"' :: body) = '"' :: body := skipWs_cons_not _ (by decide)
  simp [parseElemsFuel, hsk]

theorem parseElemsFuel_encode : ∀ (L : List String) (x : String)
    (tail : List Char) (fuel : Nat), L.length < fuel →
    parseElemsFuel fuel
        (joinItems ((x :: L).map encodeStringChars) ++ ']' :: tail) =
      some ((x :: L).map String.data, tail) := by
  intro L
  induction L with
  | nil =>
    intro x tail fuel hf
    cases fuel with
    | zero => omega
    | succ f =>
      have hstream : joinItems ([x].map encodeStringChars) ++ ']' :: tail =
          '"' :: (escList x.data ++ '"' :: (']' :: tail)) := by
        simp [joinItems, encodeStringChars]
      rw [hstream, parseElemsFuel_cons_quote, parseStrBody_escList]
      rfl
  | cons y L ih =>
    intro x tail fuel hf
    cases fuel with
    | zero => omega
    | succ f =>
      have hstream :
          joinItems ((x :: y :: L).map encodeStringChars) ++ ']' :: tail =
          '"' :: (escList x.data ++ '"' :: (',' :: ' ' ::
            (joinItems ((y :: L).map encodeStringChars) ++ ']' :: tail))) := by
        simp [joinItems, encodeStringChars]
      rw [hstream, parseElemsFuel_cons_quote, parseStrBody_escList]
      cases f with
      | zero =>
        simp only [List.length_cons] at hf
        omega
      | succ g =>
        have hws := parseElemsFuel_ws g ' '
          (joinItems ((y :: L).map encodeStringChars) ++ ']' :: tail)
          (by decide)
        have hrec := ih y tail (g + 1)
          (by simp only [List.length_cons] at hf; omega)
        show (match parseElemsFuel (g + 1) (' ' ::
            (joinItems ((y :: L).map encodeStringChars) ++ ']' :: tail)) with
          | some (items, rest) => some (x.data :: items, rest)
          | none => none) = _
        rw [hws, hrec]
        rfl

theorem joinItems_len : ∀ (L : List String) (x : String),
    L.length ≤ (joinItems ((x :: L).map encodeStringChars)).length := by
  intro L
  induction L with
  | nil => intro x; simp
  | cons y L ih =>
    intro x
    have hy := ih y
    simp only [List.map_cons, joinItems, List.length_append, List.length_cons]
    simp only [List.map_cons] at hy
    omega

theorem string_mk_data (s : String) : String.mk s.data = s := by
  cases s
  rfl

/-- `json.loads ∘ json.dumps` is the identity on lists of strings. -/
theorem json_roundtrip (L : List String) :
    json_loads_strlist (json_dumps_strlist L) = some L := by
  cases L with
  | nil => rfl
  | cons x xs =>
    obtain ⟨Z, hZ⟩ : ∃ Z, joinItems ((x :: xs).map encodeStringChars) =
        '"' :: Z := by
      cases xs with
      | nil => exact ⟨escList x.data ++ ['"'], rfl⟩
      | cons y L =>
        exact ⟨(escList x.data ++ ['"']) ++ ',' :: ' ' ::
          joinItems ((y :: L).map encodeStringChars), rfl⟩
    have hfuel : xs.length <
        (joinItems ((x :: xs).map encodeStringChars) ++ ']' :: []).length + 1 := by
      have := joinItems_len xs x
      simp only [List.length_append, List.length_cons]
      omega
    have henc := parseElemsFuel_encode xs x []
      ((joinItems ((x :: xs).map encodeStringChars) ++ ']' :: []).length + 1)
      hfuel
    have hdata : (json_dumps_strlist (x :: xs)).data =
        '[' :: (joinItems ((x :: xs).map encodeStringChars) ++ ']' :: []) := rfl
    rw [hZ] at henc hdata
    unfold json_loads_strlist
    rw [hdata]
    rw [skipWs_cons_not _ (by decide)]
    simp only [List.cons_append]
    rw [skipWs_cons_not _ (by decide)]
    simp only [← List.cons_append, henc]
    simp only [List.map_map, skipWs]
    show (if (([] : List Char) == ([] : List Char)) = true then
        some (List.map ((fun cs => ({ data := cs } : String)) ∘ String.data)
          (x :: xs))
      else none) = some (x :: xs)
    rw [if_pos (by decide)]
    simp only [Option.some.injEq]
    exact (List.map_congr_left fun a _ => string_mk_data a).trans
      (List.map_id (x :: xs))

/-- C7: For every list of user names L, a successful
`store_channel_summary` call with active_users = L produces a row whose
`active_users` count equals the length of L and whose
`active_users_list` text deserializes back to a list equal to L (JSON
round-trip). -/
theorem summary_roundtrip_spec (b : Bool) (db : DBState) (now : PyDateTime)
    (cid cname : String) (d : PyDateTime) (st : String) (mc : Int)
    (L : List String) (gid gname : Option String)
    (meta : Option (List (String × String)))
    (h : (store_channel_summary b db now cid cname d st mc L gid gname
      meta).1 = true) :
    ∃ r : SummaryRow,
      ((store_channel_summary b db now cid cname d st mc L gid gname
        meta).2).summaries = db.summaries ++ [r] ∧
      r.active_users = L.length ∧
      json_loads_strlist r.active_users_list = some L := by
  cases b with
  | true => simp [store_channel_summary] at h
  | false =>
    clear h
    refine ⟨{ rowid := db.summaries.length + 1, channel_id := cid,
              channel_name := cname, guild_id := gid, guild_name := gname,
              date := strftimeYMD d, summary_text := st, message_count := mc,
              active_users := L.length,
              active_users_list := json_dumps_strlist L,
              created_at := now.isoformat,
              metadata := match meta with
                | some m => if m.isEmpty then none else some (json_dumps_obj m)
                | none => none }, rfl, rfl, json_roundtrip L⟩

/-- Witness for C7 with L = ["a", "b", "c"] (the spec's own test
vector) on the sample store. -/
theorem summary_roundtrip_witness :
    (store_channel_summary false dbW dtNow "c1" "general" dtT1 "sum" 3
        ["a", "b", "c"] none none none).1 = true ∧
    ∃ r : SummaryRow,
      ((store_channel_summary false dbW dtNow "c1" "general" dtT1 "sum" 3
        ["a", "b", "c"] none none none).2).summaries =
        dbW.summaries ++ [r] ∧
      r.active_users = (["a", "b", "c"] : List String).length ∧
      json_loads_strlist r.active_users_list = some ["a", "b", "c"] :=
  ⟨rfl, summary_roundtrip_spec false dbW dtNow "c1" "general" dtT1 "sum" 3
    ["a", "b", "c"] none none none rfl⟩

/-! Lemmas about the key scan and grouping of
`get_messages_for_time_range`. -/

theorem foldl_keys_mem : ∀ (l : List MessageRow) (acc : List String)
    (c : String),
    (c ∈ l.foldl (fun ks r => if ks.contains r.channel_id then ks
      else ks ++ [r.channel_id]) acc) ↔
    (c ∈ acc ∨ ∃ r ∈ l, r.channel_id = c) := by
  intro l
  induction l with
  | nil => intro acc c; simp
  | cons r t ih =>
    intro acc c
    rw [List.foldl_cons, ih]
    by_cases hmem : r.channel_id ∈ acc
    · have hcb : acc.contains r.channel_id = true := by simpa using hmem
      rw [hcb, if_pos rfl]
      constructor
      · rintro (h | ⟨a, hat, hac⟩)
        · exact Or.inl h
        · exact Or.inr ⟨a, List.mem_cons_of_mem _ hat, hac⟩
      · rintro (h | ⟨a, ha, hac⟩)
        · exact Or.inl h
        · rcases List.mem_cons.mp ha with rfl | hat
          · exact Or.inl (hac ▸ hmem)
          · exact Or.inr ⟨a, hat, hac⟩
    · have hcb : acc.contains r.channel_id = false := by simpa using hmem
      rw [hcb, if_neg Bool.false_ne_true]
      simp only [List.mem_append, List.mem_singleton]
      constructor
      · rintro ((h | h) | ⟨a, hat, hac⟩)
        · exact Or.inl h
        · exact Or.inr ⟨r, List.mem_cons_self r t, h.symm⟩
        · exact Or.inr ⟨a, List.mem_cons_of_mem _ hat, hac⟩
      · rintro (h | ⟨a, ha, hac⟩)
        · exact Or.inl (Or.inl h)
        · rcases List.mem_cons.mp ha with rfl | hat
          · exact Or.inl (Or.inr hac.symm)
          · exact Or.inr ⟨a, hat, hac⟩

theorem foldl_keys_nodup : ∀ (l : List MessageRow) (acc : List String),
    acc.Nodup → (l.foldl (fun ks r => if ks.contains r.channel_id then ks
      else ks ++ [r.channel_id]) acc).Nodup := by
  intro l
  induction l with
  | nil => intro acc h; simpa using h
  | cons r t ih =>
    intro acc h
    rw [List.foldl_cons]
    by_cases hmem : r.channel_id ∈ acc
    · have hcb : acc.contains r.channel_id = true := by simpa using hmem
      rw [hcb, if_pos rfl]
      exact ih acc h
    · have hcb : acc.contains r.channel_id = false := by simpa using hmem
      rw [hcb, if_neg Bool.false_ne_true]
      refine ih _ ?_
      rw [List.nodup_append]
      exact ⟨h, List.nodup_singleton _, by
        intro a ha hb
        rw [List.mem_singleton] at hb
        subst hb
        exact hmem ha⟩

theorem foldl_keys_sublist : ∀ (l : List MessageRow) (acc : List String),
    (l.foldl (fun ks r => if ks.contains r.channel_id then ks
      else ks ++ [r.channel_id]) acc).Sublist
      (acc ++ l.map (fun r => r.channel_id)) := by
  intro l
  induction l with
  | nil => intro acc; simp
  | cons r t ih =>
    intro acc
    rw [List.foldl_cons, List.map_cons]
    by_cases hmem : r.channel_id ∈ acc
    · have hcb : acc.contains r.channel_id = true := by simpa using hmem
      rw [hcb, if_pos rfl]
      refine (ih acc).trans ?_
      exact (List.sublist_cons_self r.channel_id _).append_left acc
    · have hcb : acc.contains r.channel_id = false := by simpa using hmem
      rw [hcb, if_neg Bool.false_ne_true]
      refine (ih (acc ++ [r.channel_id])).trans ?_
      rw [List.append_assoc, List.singleton_append]

theorem firstKeys_mem (l : List MessageRow) (c : String) :
    c ∈ firstKeys l ↔ ∃ r ∈ l, r.channel_id = c := by
  rw [firstKeys, foldl_keys_mem]
  simp

theorem firstKeys_nodup (l : List MessageRow) : (firstKeys l).Nodup :=
  foldl_keys_nodup l [] List.nodup_nil

theorem firstKeys_sublist (l : List MessageRow) :
    (firstKeys l).Sublist (l.map (fun r => r.channel_id)) := by
  have h := foldl_keys_sublist l []
  rw [List.nil_append] at h
  exact h

theorem groupSpec_map_fst (l : List MessageRow) :
    (groupSpec l).map Prod.fst = firstKeys l := by
  rw [groupSpec, List.map_map]
  exact List.map_id _

theorem groupFor_channel_id (l : List MessageRow) (c : String) :
    (groupFor l c).channel_id = c := by
  unfold groupFor
  cases h : l.filter (fun r => r.channel_id == c) with
  | nil => rfl
  | cons a as => rfl

theorem filter_channel_ne_nil (l : List MessageRow) (c : String) :
    l.filter (fun r => r.channel_id == c) ≠ [] ↔ ∃ r ∈ l, r.channel_id = c := by
  rw [Ne, List.filter_eq_nil_iff]
  push_neg
  simp only [beq_iff_eq]

theorem addRow_groupSpec (l : List MessageRow) (r : MessageRow) :
    addRowToGroups (groupSpec l) r = groupSpec (l ++ [r]) := by
  have hkeysapp : firstKeys (l ++ [r]) =
      if (firstKeys l).contains r.channel_id then firstKeys l
      else firstKeys l ++ [r.channel_id] := by
    rw [firstKeys, firstKeys, List.foldl_append, List.foldl_cons,
      List.foldl_nil]
  by_cases hmem : r.channel_id ∈ firstKeys l
  · have hcb : (firstKeys l).contains r.channel_id = true := by simpa using hmem
    have hany : (groupSpec l).any (fun p => p.1 == r.channel_id) = true := by
      rw [List.any_eq_true]
      exact ⟨(r.channel_id, groupFor l r.channel_id),
        List.mem_map.mpr ⟨r.channel_id, hmem, rfl⟩, by simp⟩
    have hRHS : groupSpec (l ++ [r]) =
        (firstKeys l).map (fun c => (c, groupFor (l ++ [r]) c)) := by
      rw [groupSpec, hkeysapp, hcb, if_pos rfl]
    rw [addRowToGroups, hany, if_pos rfl, hRHS, groupSpec, List.map_map]
    apply List.map_congr_left
    intro c hc
    simp only [Function.comp_apply]
    by_cases hceq : c = r.channel_id
    · rw [if_pos (by simp [hceq])]
      have hne : l.filter (fun x => x.channel_id == c) ≠ [] := by
        rw [filter_channel_ne_nil]
        exact (firstKeys_mem l c).mp (hceq ▸ hmem)
      cases heq : l.filter (fun x => x.channel_id == c) with
      | nil => exact absurd heq hne
      | cons a as =>
        have hfilapp : (l ++ [r]).filter (fun x => x.channel_id == c) =
            a :: (as ++ [r]) := by
          rw [List.filter_append, heq]
          simp [hceq.symm]
        rw [groupFor, groupFor, heq, hfilapp]
        simp [List.map_append]
    · rw [if_neg (by simp [hceq])]
      have hfil : (l ++ [r]).filter (fun x => x.channel_id == c) =
          l.filter (fun x => x.channel_id == c) := by
        rw [List.filter_append]
        have hrc : (r.channel_id == c) = false := by
          simp only [beq_eq_false_iff_ne, Ne]
          exact fun h => hceq h.symm
        simp [List.filter_cons, hrc]
      rw [groupFor, groupFor, hfil]
  · have hcb : (firstKeys l).contains r.channel_id = false := by
      simpa using hmem
    have hany : (groupSpec l).any (fun p => p.1 == r.channel_id) = false := by
      rw [← Bool.not_eq_true, List.any_eq_true]
      rintro ⟨p, hp, hbeq⟩
      obtain ⟨c, hc, rfl⟩ := List.mem_map.mp hp
      rw [beq_iff_eq] at hbeq
      exact hmem (hbeq ▸ hc)
    have hRHS : groupSpec (l ++ [r]) =
        (firstKeys l).map (fun c => (c, groupFor (l ++ [r]) c)) ++
          [(r.channel_id, groupFor (l ++ [r]) r.channel_id)] := by
      rw [groupSpec, hkeysapp, hcb, if_neg Bool.false_ne_true,
        List.map_append]
      rfl
    rw [addRowToGroups, hany, if_neg Bool.false_ne_true, hRHS]
    congr 1
    · rw [groupSpec]
      apply List.map_congr_left
      intro c hc
      have hcne : r.channel_id ≠ c := fun h => hmem (h ▸ hc)
      have hfil : (l ++ [r]).filter (fun x => x.channel_id == c) =
          l.filter (fun x => x.channel_id == c) := by
        rw [List.filter_append]
        have hrc : (r.channel_id == c) = false := by
          simp only [beq_eq_false_iff_ne, Ne]
          exact hcne
        simp [List.filter_cons, hrc]
      rw [groupFor, groupFor, hfil]
    · have hfil0 : l.filter (fun x => x.channel_id == r.channel_id) = [] := by
        rw [List.filter_eq_nil_iff]
        intro a ha hbeq
        refine hmem ((firstKeys_mem l r.channel_id).mpr ⟨a, ha, ?_⟩)
        simpa using hbeq
      have hfil : (l ++ [r]).filter (fun x => x.channel_id == r.channel_id) =
          [r] := by
        rw [List.filter_append, hfil0]
        simp
      rw [groupFor, hfil]
      rfl

theorem foldl_addRow_groupSpec (l : List MessageRow) :
    l.foldl addRowToGroups [] = groupSpec l := by
  induction l using List.reverseRecOn with
  | nil => rfl
  | append_singleton t r ih =>
    rw [List.foldl_append, List.foldl_cons, List.foldl_nil, ih,
      addRow_groupSpec]

theorem strLtB_irrefl (a : String) : strLtB a a = false := by
  cases h : strLtB a a with
  | false => rfl
  | true =>
    have hf := strLtB_asymm h
    rw [h] at hf
    exact hf

/-- C2: For every start/end, `get_messages_for_time_range` compares the
unshifted ISO-8601 bounds against stored created_at (no +5h shift,
unlike `get_channel_messages_for_timeframe`) and returns the matching
messages grouped into a mapping keyed by channel_id, each group carrying
channel identity and its messages ordered ascending by created_at, with
groups appearing in first-seen order of the channel_id-ascending scan
(i.e. keys strictly ascending). -/
theorem time_range_grouping_spec (db : DBState) (s e : PyDateTime) :
    ((get_messages_for_time_range false db s e).map Prod.fst).Pairwise
      (fun a b => strLtB a b = true) ∧
    (∀ c : String, (∃ g : ChannelGroup,
        (c, g) ∈ get_messages_for_time_range false db s e) ↔
      db.messages.filter (fun r => r.channel_id == c &&
        (strLeB s.isoformat r.created_at.isoformat &&
         strLeB r.created_at.isoformat e.isoformat)) ≠ []) ∧
    (∀ (c : String) (g : ChannelGroup),
      (c, g) ∈ get_messages_for_time_range false db s e →
      g.channel_id = c ∧
      (∃ r ∈ db.messages.filter (fun r => r.channel_id == c &&
          (strLeB s.isoformat r.created_at.isoformat &&
           strLeB r.created_at.isoformat e.isoformat)),
        g.channel_name = r.channel_name ∧ g.guild_id = r.guild_id ∧
        g.guild_name = r.guild_name) ∧
      g.messages.Perm ((db.messages.filter (fun r => r.channel_id == c &&
          (strLeB s.isoformat r.created_at.isoformat &&
           strLeB r.created_at.isoformat e.isoformat))).map projFull) ∧
      g.messages.Pairwise (fun a b =>
        strLeB a.created_at.isoformat b.created_at.isoformat = true)) := by
  have hdef : get_messages_for_time_range false db s e =
      groupSpec ((db.messages.filter (fun r =>
        strLeB s.isoformat r.created_at.isoformat &&
        strLeB r.created_at.isoformat e.isoformat)).mergeSort
        chanCreatedLe) := by
    rw [show get_messages_for_time_range false db s e =
        ((db.messages.filter (fun r =>
          strLeB s.isoformat r.created_at.isoformat &&
          strLeB r.created_at.isoformat e.isoformat)).mergeSort
          chanCreatedLe).foldl addRowToGroups [] from rfl,
      foldl_addRow_groupSpec]
  have hSsorted := List.sorted_mergeSort chanCreatedLe_trans
    chanCreatedLe_total (db.messages.filter (fun r =>
      strLeB s.isoformat r.created_at.isoformat &&
      strLeB r.created_at.isoformat e.isoformat))
  have hSperm := List.mergeSort_perm (db.messages.filter (fun r =>
      strLeB s.isoformat r.created_at.isoformat &&
      strLeB r.created_at.isoformat e.isoformat)) chanCreatedLe
  refine ⟨?_, ?_, ?_⟩
  · -- keys strictly ascending
    rw [hdef, groupSpec_map_fst]
    have hmapPW : (((db.messages.filter (fun r =>
        strLeB s.isoformat r.created_at.isoformat &&
        strLeB r.created_at.isoformat e.isoformat)).mergeSort
        chanCreatedLe).map (fun r => r.channel_id)).Pairwise
        (fun a b => strLtB a b = true ∨ a = b) := by
      refine List.Pairwise.map _ ?_ hSsorted
      intro a b h
      simp only [chanCreatedLe, Bool.or_eq_true, Bool.and_eq_true,
        beq_iff_eq] at h
      rcases h with h | ⟨h, _⟩
      · exact Or.inl h
      · exact Or.inr h
    have hPW := List.Pairwise.sublist (firstKeys_sublist _) hmapPW
    have hnd := firstKeys_nodup ((db.messages.filter (fun r =>
        strLeB s.isoformat r.created_at.isoformat &&
        strLeB r.created_at.isoformat e.isoformat)).mergeSort chanCreatedLe)
    exact (hPW.and hnd).imp (fun h => h.1.resolve_right h.2)
  · -- membership characterization
    intro c
    rw [hdef]
    constructor
    · rintro ⟨g, hg⟩
      obtain ⟨c', hc', heq⟩ := List.mem_map.mp hg
      have hcc : c' = c := congrArg Prod.fst heq
      subst hcc
      obtain ⟨r, hr, hrc⟩ := (firstKeys_mem _ c').mp hc'
      have hrdb := hSperm.mem_iff.mp hr
      rw [List.mem_filter] at hrdb
      intro hnil
      rw [List.filter_eq_nil_iff] at hnil
      refine hnil r hrdb.1 ?_
      simp only [Bool.and_eq_true, beq_iff_eq]
      exact ⟨hrc, by simpa using hrdb.2⟩
    · intro hne
      have : ∃ r ∈ db.messages, r.channel_id = c ∧
          (strLeB s.isoformat r.created_at.isoformat &&
           strLeB r.created_at.isoformat e.isoformat) = true := by
        by_contra hno
        push_neg at hno
        refine hne ?_
        rw [List.filter_eq_nil_iff]
        intro a ha hcond
        simp only [Bool.and_eq_true, beq_iff_eq] at hcond
        exact hno a ha hcond.1 (by simp [hcond.2.1, hcond.2.2])
      obtain ⟨r, hrdb, hrc, hcond⟩ := this
      have hrS : r ∈ (db.messages.filter (fun r =>
          strLeB s.isoformat r.created_at.isoformat &&
          strLeB r.created_at.isoformat e.isoformat)).mergeSort
          chanCreatedLe := by
        rw [hSperm.mem_iff, List.mem_filter]
        exact ⟨hrdb, hcond⟩
      have hc : c ∈ firstKeys ((db.messages.filter (fun r =>
          strLeB s.isoformat r.created_at.isoformat &&
          strLeB r.created_at.isoformat e.isoformat)).mergeSort
          chanCreatedLe) := (firstKeys_mem _ c).mpr ⟨r, hrS, hrc⟩
      exact ⟨groupFor _ c, List.mem_map.mpr ⟨c, hc, rfl⟩⟩
  · -- per-group content
    intro c g hg
    rw [hdef] at hg
    obtain ⟨c', hc', heq⟩ := List.mem_map.mp hg
    have hcc : c' = c := congrArg Prod.fst heq
    subst hcc
    have hgg : g = groupFor _ c' := (congrArg Prod.snd heq).symm
    subst hgg
    have hfilperm : (((db.messages.filter (fun r =>
        strLeB s.isoformat r.created_at.isoformat &&
        strLeB r.created_at.isoformat e.isoformat)).mergeSort
        chanCreatedLe).filter (fun x => x.channel_id == c')).Perm
        (db.messages.filter (fun r => r.channel_id == c' &&
          (strLeB s.isoformat r.created_at.isoformat &&
           strLeB r.created_at.isoformat e.isoformat))) := by
      have h := hSperm.filter (fun x => x.channel_id == c')
      rwa [List.filter_filter] at h
    have hne : ((db.messages.filter (fun r =>
        strLeB s.isoformat r.created_at.isoformat &&
        strLeB r.created_at.isoformat e.isoformat)).mergeSort
        chanCreatedLe).filter (fun x => x.channel_id == c') ≠ [] := by
      rw [filter_channel_ne_nil]
      exact (firstKeys_mem _ c').mp hc'
    refine ⟨groupFor_channel_id _ c', ?_, ?_, ?_⟩
    · cases heqf : ((db.messages.filter (fun r =>
          strLeB s.isoformat r.created_at.isoformat &&
          strLeB r.created_at.isoformat e.isoformat)).mergeSort
          chanCreatedLe).filter (fun x => x.channel_id == c') with
      | nil => exact absurd heqf hne
      | cons a as =>
        refine ⟨a, ?_, ?_⟩
        · exact hfilperm.mem_iff.mp (heqf ▸ List.mem_cons_self a as)
        · rw [groupFor, heqf]
          exact ⟨rfl, rfl, rfl⟩
    · cases heqf : ((db.messages.filter (fun r =>
          strLeB s.isoformat r.created_at.isoformat &&
          strLeB r.created_at.isoformat e.isoformat)).mergeSort
          chanCreatedLe).filter (fun x => x.channel_id == c') with
      | nil => exact absurd heqf hne
      | cons a as =>
        have hmsg : (groupFor ((db.messages.filter (fun r =>
            strLeB s.isoformat r.created_at.isoformat &&
            strLeB r.created_at.isoformat e.isoformat)).mergeSort
            chanCreatedLe) c').messages = (a :: as).map projFull := by
          rw [groupFor, heqf]
        rw [hmsg, ← heqf]
        exact hfilperm.map projFull
    · cases heqf : ((db.messages.filter (fun r =>
          strLeB s.isoformat r.created_at.isoformat &&
          strLeB r.created_at.isoformat e.isoformat)).mergeSort
          chanCreatedLe).filter (fun x => x.channel_id == c') with
      | nil => exact absurd heqf hne
      | cons a as =>
        have hmsg : (groupFor ((db.messages.filter (fun r =>
            strLeB s.isoformat r.created_at.isoformat &&
            strLeB r.created_at.isoformat e.isoformat)).mergeSort
            chanCreatedLe) c').messages = (a :: as).map projFull := by
          rw [groupFor, heqf]
        rw [hmsg, ← heqf]
        have hfPW := List.Pairwise.filter (R := fun a b =>
          chanCreatedLe a b = true) (fun x => x.channel_id == c') hSsorted
        refine List.Pairwise.map _ (fun a b h => h) ?_
        refine List.Pairwise.imp_of_mem ?_ hfPW
        intro x y hx hy hxy
        have hxc : x.channel_id = c' := by
          have := (List.mem_filter.mp hx).2
          simpa using this
        have hyc : y.channel_id = c' := by
          have := (List.mem_filter.mp hy).2
          simpa using this
        simp only [chanCreatedLe, Bool.or_eq_true, Bool.and_eq_true,
          beq_iff_eq] at hxy
        rcases hxy with h | ⟨_, h⟩
        · rw [hxc, hyc, strLtB_irrefl] at h
          exact absurd h (by simp)
        · exact h

/-- Witness for C2 on the sample store (two channels, bounds covering
both messages). -/
theorem time_range_grouping_witness :
    ((get_messages_for_time_range false dbW dtS dtNow).map Prod.fst).Pairwise
      (fun a b => strLtB a b = true) ∧
    (∀ c : String, (∃ g : ChannelGroup,
        (c, g) ∈ get_messages_for_time_range false dbW dtS dtNow) ↔
      dbW.messages.filter (fun r => r.channel_id == c &&
        (strLeB dtS.isoformat r.created_at.isoformat &&
         strLeB r.created_at.isoformat dtNow.isoformat)) ≠ []) ∧
    (∀ (c : String) (g : ChannelGroup),
      (c, g) ∈ get_messages_for_time_range false dbW dtS dtNow →
      g.channel_id = c ∧
      (∃ r ∈ dbW.messages.filter (fun r => r.channel_id == c &&
          (strLeB dtS.isoformat r.created_at.isoformat &&
           strLeB r.created_at.isoformat dtNow.isoformat)),
        g.channel_name = r.channel_name ∧ g.guild_id = r.guild_id ∧
        g.guild_name = r.guild_name) ∧
      g.messages.Perm ((dbW.messages.filter (fun r => r.channel_id == c &&
          (strLeB dtS.isoformat r.created_at.isoformat &&
           strLeB r.created_at.isoformat dtNow.isoformat))).map projFull) ∧
      g.messages.Pairwise (fun a b =>
        strLeB a.created_at.isoformat b.created_at.isoformat = true)) :=
  time_range_grouping_spec dbW dtS dtNow

theorem filterMap_groups_map_id : ∀ (keys : List String)
    (rows : List MessageRow),
    (∀ c ∈ keys, rows.filter (fun r => r.channel_id == c) ≠ []) →
    ((keys.filterMap (fun c =>
      match rows.filter (fun r => r.channel_id == c) with
      | [] => none
      | r :: rs =>
        some { channel_id := c, channel_name := r.channel_name,
               guild_id := r.guild_id, guild_name := r.guild_name,
               message_count := (r :: rs).length : ActiveChannel })).map
      (fun g => g.channel_id)) = keys := by
  intro keys
  induction keys with
  | nil => intro rows h; rfl
  | cons c ks ih =>
    intro rows h
    cases heq : rows.filter (fun r => r.channel_id == c) with
    | nil => exact absurd heq (h c (List.mem_cons_self c ks))
    | cons a as =>
      simp only [List.filterMap_cons, heq, List.map_cons]
      rw [ih rows (fun x hx => h x (List.mem_cons_of_mem c hx))]

/-- C6: For every windowHours h (within calendar range),
`get_active_channels` returns one entry per channel having at least one
message with created_at ≥ now − h hours, each entry carrying the channel
identity and that channel's message count within the window, ordered by
message count descending; channels whose most recent message is older
than h hours are excluded (an entry exists only when a message is in the
window). -/
theorem active_channels_spec (db : DBState) (now : PyDateTime) (hours : Nat)
    (_hrep : hours * 3600000000 ≤ toMicros now) :
    (∀ c : String,
      (∃ g ∈ get_active_channels false db now hours, g.channel_id = c) ↔
      db.messages.filter (fun r => r.channel_id == c &&
        strLeB (subHours now hours).isoformat r.created_at.isoformat) ≠ []) ∧
    (∀ g ∈ get_active_channels false db now hours,
      g.message_count = (db.messages.filter (fun r =>
        r.channel_id == g.channel_id &&
        strLeB (subHours now hours).isoformat r.created_at.isoformat)).length ∧
      ∃ r ∈ db.messages.filter (fun r => r.channel_id == g.channel_id &&
          strLeB (subHours now hours).isoformat r.created_at.isoformat),
        g.channel_name = r.channel_name ∧ g.guild_id = r.guild_id ∧
        g.guild_name = r.guild_name) ∧
    ((get_active_channels false db now hours).map
      (fun g => g.channel_id)).Nodup ∧
    (get_active_channels false db now hours).Pairwise
      (fun a b => b.message_count ≤ a.message_count) := by
  have hff : ∀ c : String,
      (db.messages.filter (fun r =>
        strLeB (subHours now hours).isoformat r.created_at.isoformat)).filter
        (fun r => r.channel_id == c) =
      db.messages.filter (fun r => r.channel_id == c &&
        strLeB (subHours now hours).isoformat r.created_at.isoformat) := by
    intro c
    rw [List.filter_filter]
  have hperm := List.mergeSort_perm ((firstKeys (db.messages.filter (fun r =>
      strLeB (subHours now hours).isoformat
        r.created_at.isoformat))).filterMap (fun c =>
      match (db.messages.filter (fun r =>
        strLeB (subHours now hours).isoformat
          r.created_at.isoformat)).filter (fun r => r.channel_id == c) with
      | [] => none
      | r :: rs =>
        some { channel_id := c, channel_name := r.channel_name,
               guild_id := r.guild_id, guild_name := r.guild_name,
               message_count := (r :: rs).length : ActiveChannel })) countGe
  have hsorted := List.sorted_mergeSort countGe_trans countGe_total
    ((firstKeys (db.messages.filter (fun r =>
      strLeB (subHours now hours).isoformat
        r.created_at.isoformat))).filterMap (fun c =>
      match (db.messages.filter (fun r =>
        strLeB (subHours now hours).isoformat
          r.created_at.isoformat)).filter (fun r => r.channel_id == c) with
      | [] => none
      | r :: rs =>
        some { channel_id := c, channel_name := r.channel_name,
               guild_id := r.guild_id, guild_name := r.guild_name,
               message_count := (r :: rs).length : ActiveChannel }))
  have hdef : get_active_channels false db now hours =
      ((firstKeys (db.messages.filter (fun r =>
        strLeB (subHours now hours).isoformat
          r.created_at.isoformat))).filterMap (fun c =>
        match (db.messages.filter (fun r =>
          strLeB (subHours now hours).isoformat
            r.created_at.isoformat)).filter (fun r => r.channel_id == c) with
        | [] => none
        | r :: rs =>
          some { channel_id := c, channel_name := r.channel_name,
                 guild_id := r.guild_id, guild_name := r.guild_name,
                 message_count := (r :: rs).length :
            ActiveChannel })).mergeSort countGe := rfl
  refine ⟨?_, ?_, ?_, ?_⟩
  · intro c
    rw [hdef]
    constructor
    · rintro ⟨g, hg, hgc⟩
      obtain ⟨c', hc', hfc⟩ := List.mem_filterMap.mp (hperm.mem_iff.mp hg)
      cases heq : (db.messages.filter (fun r =>
          strLeB (subHours now hours).isoformat
            r.created_at.isoformat)).filter (fun r => r.channel_id == c') with
      | nil => rw [heq] at hfc; exact absurd hfc (by simp)
      | cons a as =>
        rw [heq] at hfc
        have hfc2 : (some ⟨c', a.channel_name, a.guild_id, a.guild_name,
            (a :: as).length⟩ : Option ActiveChannel) = some g := hfc
        have hgc' : g.channel_id = c' :=
          congrArg ActiveChannel.channel_id (Option.some.inj hfc2).symm
        have hcc : c' = c := hgc' ▸ hgc
        subst hcc
        rw [← hff c']
        rw [heq]
        simp
    · intro hne
      rw [← hff c] at hne
      have hc : c ∈ firstKeys (db.messages.filter (fun r =>
          strLeB (subHours now hours).isoformat r.created_at.isoformat)) :=
        (firstKeys_mem _ c).mpr ((filter_channel_ne_nil _ c).mp hne)
      cases heq : (db.messages.filter (fun r =>
          strLeB (subHours now hours).isoformat
            r.created_at.isoformat)).filter (fun r => r.channel_id == c) with
      | nil => exact absurd heq hne
      | cons a as =>
        refine ⟨{ channel_id := c, channel_name := a.channel_name,
                  guild_id := a.guild_id, guild_name := a.guild_name,
                  message_count := (a :: as).length }, ?_, rfl⟩
        refine hperm.mem_iff.mpr (List.mem_filterMap.mpr ⟨c, hc, ?_⟩)
        rw [heq]
  · intro g hg
    rw [hdef] at hg
    obtain ⟨c', hc', hfc⟩ := List.mem_filterMap.mp (hperm.mem_iff.mp hg)
    cases heq : (db.messages.filter (fun r =>
        strLeB (subHours now hours).isoformat
          r.created_at.isoformat)).filter (fun r => r.channel_id == c') with
    | nil => rw [heq] at hfc; exact absurd hfc (by simp)
    | cons a as =>
      rw [heq] at hfc
      have hfc2 : (some ⟨c', a.channel_name, a.guild_id, a.guild_name,
          (a :: as).length⟩ : Option ActiveChannel) = some g := hfc
      have hgg : g = (⟨c', a.channel_name, a.guild_id, a.guild_name,
          (a :: as).length⟩ : ActiveChannel) :=
        (Option.some.inj hfc2).symm
      subst hgg
      constructor
      · show (a :: as).length = _
        rw [← hff c', heq]
      · refine ⟨a, ?_, rfl, rfl, rfl⟩
        rw [← hff c', heq]
        exact List.mem_cons_self a as
  · rw [hdef]
    have hkeyne : ∀ c ∈ firstKeys (db.messages.filter (fun r =>
        strLeB (subHours now hours).isoformat r.created_at.isoformat)),
        (db.messages.filter (fun r =>
          strLeB (subHours now hours).isoformat
            r.created_at.isoformat)).filter (fun r => r.channel_id == c) ≠ [] :=
      fun c hc => (filter_channel_ne_nil _ c).mpr ((firstKeys_mem _ c).mp hc)
    have hid := filterMap_groups_map_id _ _ hkeyne
    have hm := hperm.map (fun g : ActiveChannel => g.channel_id)
    rw [hid] at hm
    exact hm.nodup_iff.mpr (firstKeys_nodup _)
  · rw [hdef]
    refine List.Pairwise.imp ?_ hsorted
    intro a b h
    simpa [countGe] using h

/-- Witness for C6 at the sample store with a 24-hour window (both
sample messages are within the window of the sample "now"). -/
theorem active_channels_witness :
    24 * 3600000000 ≤ toMicros dtNow ∧
    ((∀ c : String,
      (∃ g ∈ get_active_channels false dbW dtNow 24, g.channel_id = c) ↔
      dbW.messages.filter (fun r => r.channel_id == c &&
        strLeB (subHours dtNow 24).isoformat r.created_at.isoformat) ≠ []) ∧
    (∀ g ∈ get_active_channels false dbW dtNow 24,
      g.message_count = (dbW.messages.filter (fun r =>
        r.channel_id == g.channel_id &&
        strLeB (subHours dtNow 24).isoformat r.created_at.isoformat)).length ∧
      ∃ r ∈ dbW.messages.filter (fun r => r.channel_id == g.channel_id &&
          strLeB (subHours dtNow 24).isoformat r.created_at.isoformat),
        g.channel_name = r.channel_name ∧ g.guild_id = r.guild_id ∧
        g.guild_name = r.guild_name) ∧
    ((get_active_channels false dbW dtNow 24).map
      (fun g => g.channel_id)).Nodup ∧
    (get_active_channels false dbW dtNow 24).Pairwise
      (fun a b => b.message_count ≤ a.message_count)) :=
  ⟨by decide, active_channels_spec dbW dtNow 24 (by decide)⟩
